import Mathlib

/-
Shallow embedding of the telegram-wolt-bot monitoring engine.

The embedding follows the three source files:
  woltapi.py   -> the upstream search and status lookups, with Python dict and
                  list access failures made explicit (KeyError caught inside a
                  try block becomes WoltAPIException, everything else escapes);
  bot.py       -> the subscription registry (dict from Restaurant to a set of
                  MonitorRequest values keyed on chat_id) and the monitor tick;
  statistics.py -> only the MonitorEvent record shape is needed here.

Times are modelled as integer seconds, chat ids as integers, the registry as an
association list in dict insertion order.
-/

namespace WoltModel

/-- Restaurant from woltapi.py: a frozen dataclass with a name and a slug,
compared and hashed on both fields. -/
structure Restaurant where
  name : String
  slug : String
deriving DecidableEq, Repr

/-- MonitorRequest from bot.py: a chat id plus a start time. The start_time
field carries compare=False, so set membership is keyed on chat_id alone. -/
structure MonitorRequest where
  chat_id : Int
  start_time : Int
deriving DecidableEq, Repr

/-- RestaurantContext from bot.py holds a Python set of MonitorRequest values;
modelled as a list whose insertion mirrors set semantics keyed on chat_id. -/
abbrev RestaurantContext := List MonitorRequest

/-- The registry field of WoltBot, the dict from Restaurant to its context,
modelled as an association list in insertion order. -/
abbrev Registry := List (Restaurant × RestaurantContext)

/-- RestaurantContext.add_chat: Python set.add is a no-op when an equal element
(same chat_id) is already present, so the original start_time survives. -/
def add_chat (ctx : RestaurantContext) (c : Int) (now : Int) : RestaurantContext :=
  if ctx.any (fun q => decide (q.chat_id = c)) then ctx else ctx ++ [⟨c, now⟩]

/-- Keys of the registry dict, in insertion order. -/
def keys (reg : Registry) : List Restaurant := reg.map Prod.fst

/-- Membership test for a restaurant key of the registry dict. -/
def hasKey (reg : Registry) (r : Restaurant) : Bool :=
  reg.any (fun p => decide (p.1 = r))

/-- Dict lookup of the context stored under a restaurant key. -/
def lookupCtx (reg : Registry) (r : Restaurant) : Option RestaurantContext :=
  match reg.find? (fun p => decide (p.1 = r)) with
  | some p => some p.2
  | none => none

/-- WoltBot.monitor_restaurant: dict.setdefault of a fresh RestaurantContext
followed by add_chat on the (possibly fresh) context. -/
def monitor_restaurant (reg : Registry) (r : Restaurant) (c : Int) (now : Int) :
    Registry :=
  if hasKey reg r then
    reg.map (fun p => if p.1 = r then (p.1, add_chat p.2 c now) else p)
  else
    reg ++ [(r, add_chat [] c now)]

/-- The value the Python method monitor_restaurant returns: it has no return
statement, so every call returns None; modelled as an Option Bool that is
always none. -/
def monitor_restaurant_value (_reg : Registry) (_r : Restaurant) (_c _now : Int) :
    Option Bool := none

/-- Modelled from the spec: the subscribe contract in the spec says the call
returns watch_already_existed, true iff a watch for the restaurant already
existed before the call. Stated here only to compare with the code. -/
def watch_already_existed_spec (reg : Registry) (r : Restaurant) : Bool :=
  hasKey reg r

/-- Whether a chat is currently subscribed to a restaurant in the registry. -/
def subscribed (reg : Registry) (r : Restaurant) (c : Int) : Bool :=
  match lookupCtx reg r with
  | some ctx => ctx.any (fun q => decide (q.chat_id = c))
  | none => false

/-- MonitorEvent from statistics.py. -/
structure MonitorEvent where
  chat_id : Int
  start_time : Int
  end_time : Int
  restaurant_name : String
  restaurant_opened : Bool
deriving DecidableEq, Repr

/-- Dict.pop of a restaurant key. -/
def eraseKey (reg : Registry) (r : Restaurant) : Registry :=
  reg.filter (fun p => decide (¬ p.1 = r))

/-- WoltBot._stop_monitoring_restaurant: pops the restaurant from the registry
(logging only when absent) and, when a statistics sink is configured, builds
one MonitorEvent per monitor request with the given success flag. -/
def stop_monitoring_restaurant (reg : Registry) (r : Restaurant) (success : Bool)
    (endTime : Int) (statsOn : Bool) : Registry × List MonitorEvent :=
  match lookupCtx reg r with
  | none => (reg, [])
  | some ctx =>
      (eraseKey reg r,
        if statsOn then
          ctx.map (fun q => ⟨q.chat_id, q.start_time, endTime, r.name, success⟩)
        else [])

/-- The min over the start times of a context; none mirrors the ValueError
Python min raises on an empty iterable. -/
def earliest_start_time (ctx : RestaurantContext) : Option Int :=
  match ctx with
  | [] => none
  | q :: rest => some (rest.foldl (fun a b => min a b.start_time) q.start_time)

/-- The default timeout of WoltBot._did_restaurant_timeout, two hours in
seconds. -/
def TIMEOUT_SECONDS : Int := 7200

/-- WoltBot._did_restaurant_timeout: true when now minus the earliest start
time strictly exceeds the timeout; none when the context is empty and the min
raises. -/
def did_restaurant_timeout (ctx : RestaurantContext) (now : Int) : Option Bool :=
  (earliest_start_time ctx).map (fun e => decide (now - e > TIMEOUT_SECONDS))

end WoltModel

namespace WoltModel

/-
The upstream API model (woltapi.py). Responses are modelled structurally, with
Option marking every dict key the Python code reads, so that each possible
KeyError and IndexError appears explicitly.
-/

/-- Python exceptions escaping the two WoltAPI functions: the wrapped
WoltAPIException (the DirectoryError of the spec), and the raw KeyError and
IndexError that the code does not catch. -/
inductive PyError
  | woltAPIException (msg : String)
  | keyError (key : String)
  | indexError
deriving DecidableEq, Repr

/-- True exactly for the typed failure the spec calls DirectoryError. -/
def isDirectoryError : PyError → Bool
  | .woltAPIException _ => true
  | _ => false

structure Venue where
  slug : Option String
deriving DecidableEq, Repr

structure SearchItem where
  title : Option String
  venue : Option Venue
deriving DecidableEq, Repr

structure SearchSection where
  name : Option String
  items : Option (List SearchItem)
deriving DecidableEq, Repr

structure SearchResponse where
  sections : Option (List SearchSection)
deriving DecidableEq, Repr

def sectionsMissingMsg : String :=
  "\"sections\" key is missing from Wolt API response."

def invalidResponseMsg : String := "Wolt API returned invalid response."

/-- Reading one search item: restaurant title, venue dict, venue slug; each
missing key is an uncaught KeyError in the Python loop. -/
def readItem (it : SearchItem) : Except PyError Restaurant :=
  match it.title with
  | none => .error (.keyError "title")
  | some t =>
      match it.venue with
      | none => .error (.keyError "venue")
      | some v =>
          match v.slug with
          | none => .error (.keyError "slug")
          | some s => .ok ⟨t, s⟩

/-- The accumulation loop over section items, stopping at the first failing
item exactly as the Python for loop would. -/
def readItems : List SearchItem → Except PyError (List Restaurant)
  | [] => .ok []
  | it :: rest =>
      match readItem it with
      | .error e => .error e
      | .ok r =>
          match readItems rest with
          | .error e => .error e
          | .ok rs => .ok (r :: rs)

/-- WoltAPI.lookup_restaurant: only the missing sections key is caught and
rewrapped as WoltAPIException; indexing the first section of an empty list is
an uncaught IndexError, and later missing keys are uncaught KeyErrors. The
no-content sentinel returns the empty list. -/
def lookup_restaurant (resp : SearchResponse) : Except PyError (List Restaurant) :=
  match resp.sections with
  | none => .error (.woltAPIException sectionsMissingMsg)
  | some sections =>
      match sections with
      | [] => .error .indexError
      | sec :: _ =>
          match sec.name with
          | none => .error (.keyError "name")
          | some nm =>
              if nm = "no-content" then .ok []
              else
                match sec.items with
                | none => .error (.keyError "items")
                | some its => readItems its

structure DeliverySpecs where
  delivery_enabled : Option Bool
deriving DecidableEq, Repr

structure StatusItem where
  online : Option Bool
  delivery_specs : Option DeliverySpecs
deriving DecidableEq, Repr

structure StatusResponse where
  results : Option (List StatusItem)
deriving DecidableEq, Repr

/-- WoltAPI.is_restaurant_online: the try block catches every KeyError and
rewraps it; indexing the first element of an empty results list is an
IndexError the except clause does not match. The Python expression
online and delivery_enabled short circuits, so the delivery keys are only
read when the online flag is true. -/
def is_restaurant_online (resp : StatusResponse) : Except PyError Bool :=
  match resp.results with
  | none => .error (.woltAPIException invalidResponseMsg)
  | some rs =>
      match rs with
      | [] => .error .indexError
      | r :: _ =>
          match r.online with
          | none => .error (.woltAPIException invalidResponseMsg)
          | some false => .ok false
          | some true =>
              match r.delivery_specs with
              | none => .error (.woltAPIException invalidResponseMsg)
              | some ds =>
                  match ds.delivery_enabled with
                  | none => .error (.woltAPIException invalidResponseMsg)
                  | some de => .ok de

end WoltModel

namespace WoltModel

/-
The monitor tick (WoltBot._monitor_restaurants). The status check is an
oracle from restaurants to outcomes and the notifier is an oracle telling
which chats accept delivery; a failing delivery raises inside the tick, as
no send_message call of the tick sits inside a try block in bot.py.
-/

/-- Outcome of one WoltAPI.is_restaurant_online call during a tick: a boolean
answer, the caught WoltAPIException, or any other exception, on which the
Python code calls os._exit(1). -/
inductive CheckResult
  | ok (b : Bool)
  | apiError
  | crash
deriving DecidableEq, Repr

/-- Ways a tick can stop before reaching its removal phase: a send_message
call raised, an unexpected exception ended the process, or the min over an
empty request set raised ValueError. -/
inductive TickAbort
  | deliveryFailure
  | fatalCrash
  | emptyMin
deriving DecidableEq, Repr

/-- One outbound message: target chat id and text. -/
abbrev Msg := Int × String

def errorMessageText : String := "Could not fetch online status. Aborting monitor."

def onlineMessageText (r : Restaurant) : String :=
  "Restaurant \"" ++ r.name ++ "\" is online!"

def timeoutMessageText (r : Restaurant) : String :=
  "Stopped monitoring restaurant \"" ++ r.name ++
  "\" because I was waiting for a long while " ++
  "(Someone else might have been waiting on this restaurant before you).\n" ++
  "You can start monitoring again if relevant."

/-- Sequential send_message over the requests of one restaurant; the error
case carries the messages already delivered before the raising call. -/
def notify_chats (sendOk : Int → Bool) (reqs : List MonitorRequest) (text : String) :
    Except (List Msg) (List Msg) :=
  match reqs with
  | [] => .ok []
  | q :: rest =>
      if sendOk q.chat_id then
        match notify_chats sendOk rest text with
        | .ok ms => .ok ((q.chat_id, text) :: ms)
        | .error ms => .error ((q.chat_id, text) :: ms)
      else .error []

/-- Combines the contribution of one scanned restaurant with the scan of the
remaining registry entries. -/
def scanStep (entry : List (Restaurant × Bool)) (ms : List Msg)
    (rest : Except (TickAbort × List Msg) (List (Restaurant × Bool) × List Msg)) :
    Except (TickAbort × List Msg) (List (Restaurant × Bool) × List Msg) :=
  match rest with
  | .ok dm => .ok (entry ++ dm.1, ms ++ dm.2)
  | .error km => .error (km.1, ms ++ km.2)

/-- The scan phase of the tick: walks the registry in insertion order without
mutating it, accumulating the done list and the messages sent; an abort
carries the messages delivered before the raise. -/
def scan_restaurants (statuses : Restaurant → CheckResult) (sendOk : Int → Bool)
    (now : Int) :
    Registry → Except (TickAbort × List Msg) (List (Restaurant × Bool) × List Msg)
  | [] => .ok ([], [])
  | p :: rest =>
      match statuses p.1 with
      | .crash => .error (.fatalCrash, [])
      | .apiError =>
          match notify_chats sendOk p.2 errorMessageText with
          | .error ms => .error (.deliveryFailure, ms)
          | .ok ms =>
              scanStep [(p.1, false)] ms (scan_restaurants statuses sendOk now rest)
      | .ok true =>
          match notify_chats sendOk p.2 (onlineMessageText p.1) with
          | .error ms => .error (.deliveryFailure, ms)
          | .ok ms =>
              scanStep [(p.1, true)] ms (scan_restaurants statuses sendOk now rest)
      | .ok false =>
          match did_restaurant_timeout p.2 now with
          | none => .error (.emptyMin, [])
          | some true =>
              match notify_chats sendOk p.2 (timeoutMessageText p.1) with
              | .error ms => .error (.deliveryFailure, ms)
              | .ok ms =>
                  scanStep [(p.1, false)] ms (scan_restaurants statuses sendOk now rest)
          | some false => scanStep [] [] (scan_restaurants statuses sendOk now rest)

/-- The removal phase of the tick: _stop_monitoring_restaurant over the done
list, in order, accumulating the reported events. -/
def remove_done (statsOn : Bool) (endTime : Int) :
    Registry → List (Restaurant × Bool) → Registry × List MonitorEvent
  | reg, [] => (reg, [])
  | reg, d :: rest =>
      let p := stop_monitoring_restaurant reg d.1 d.2 endTime statsOn
      let q := remove_done statsOn endTime p.1 rest
      (q.1, p.2 ++ q.2)

/-- Result of one tick: the registry afterwards, the messages delivered, the
events reported to the statistics sink, and whether the tick aborted before
its removal phase. -/
structure TickOutcome where
  registry : Registry
  messages : List Msg
  events : List MonitorEvent
  aborted : Option TickAbort
deriving DecidableEq, Repr

/-- WoltBot._monitor_restaurants: scan the whole registry first, then remove
the done restaurants; an abort leaves the registry untouched and reports no
events, since every raise in the scan happens before any mutation. -/
def monitor_restaurants (reg : Registry) (statuses : Restaurant → CheckResult)
    (sendOk : Int → Bool) (now : Int) (statsOn : Bool) : TickOutcome :=
  match scan_restaurants statuses sendOk now reg with
  | .error km => ⟨reg, km.2, [], some km.1⟩
  | .ok dm =>
      let p := remove_done statsOn now reg dm.1
      ⟨p.1, dm.2, p.2, none⟩

/-- WoltBot.MONITOR_INTERVAL_RANGE_SEC, the tuple (10, 20). -/
def MONITOR_INTERVAL_RANGE_SEC : Nat × Nat := (10, 20)

/-- Python random.randrange(lo, hi) as a function of the random draw k: an
integer of the half open range from lo up to but excluding hi. -/
def randrange (lo hi : Nat) (k : Nat) : Nat := lo + k % (hi - lo)

/-- WoltBot._schedule_monitor_job computes randrange over the interval
tuple. -/
def schedule_monitor_interval (k : Nat) : Nat :=
  randrange MONITOR_INTERVAL_RANGE_SEC.1 MONITOR_INTERVAL_RANGE_SEC.2 k

/-- WoltBot._monitor_restaurants_job: run one tick, then schedule the next
run once; a raise inside the tick skips the scheduling call. -/
def monitor_restaurants_job (reg : Registry) (statuses : Restaurant → CheckResult)
    (sendOk : Int → Bool) (now : Int) (statsOn : Bool) (k : Nat) :
    TickOutcome × Option Nat :=
  let out := monitor_restaurants reg statuses sendOk now statsOn
  (out, if out.aborted = none then some (schedule_monitor_interval k) else none)

/-- Per restaurant terminal outcome of a tick, when one exists: the success
flag recorded in the done list. -/
def terminal_outcome (statuses : Restaurant → CheckResult) (now : Int)
    (p : Restaurant × RestaurantContext) : Option Bool :=
  match statuses p.1 with
  | .crash => none
  | .apiError => some false
  | .ok true => some true
  | .ok false =>
      match did_restaurant_timeout p.2 now with
      | some true => some false
      | _ => none

/-- The text a terminal restaurant sends to each of its subscribers. -/
def outcome_message (statuses : Restaurant → CheckResult) (p : Restaurant × RestaurantContext) :
    String :=
  match statuses p.1 with
  | .apiError => errorMessageText
  | .ok true => onlineMessageText p.1
  | _ => timeoutMessageText p.1

/-- Messages one registry entry contributes to a completed scan. -/
def message_block (statuses : Restaurant → CheckResult) (now : Int)
    (p : Restaurant × RestaurantContext) : List Msg :=
  match terminal_outcome statuses now p with
  | none => []
  | some _ => p.2.map (fun q => (q.chat_id, outcome_message statuses p))

/-- Events one registry entry contributes to a completed tick. -/
def event_block (statuses : Restaurant → CheckResult) (now : Int) (statsOn : Bool)
    (p : Restaurant × RestaurantContext) : List MonitorEvent :=
  match terminal_outcome statuses now p with
  | none => []
  | some b =>
      if statsOn then
        p.2.map (fun q => ⟨q.chat_id, q.start_time, now, p.1.name, b⟩)
      else []

/-- Concatenation of the lists a function assigns to the elements of a list. -/
def catMaps (f : α → List β) : List α → List β
  | [] => []
  | a :: l => f a ++ catMaps f l

/-- Well formed registries: distinct restaurant keys, and every context is a
nonempty set of requests with distinct chat ids. -/
def WF (reg : Registry) : Prop :=
  (keys reg).Nodup ∧ ∀ p ∈ reg, p.2 ≠ [] ∧ (p.2.map (fun q => q.chat_id)).Nodup

/-- Registry states reachable from the empty registry through subscribe calls
and monitor ticks. -/
inductive Reachable : Registry → Prop
  | empty : Reachable []
  | subscribe {reg : Registry} (r : Restaurant) (c now : Int) :
      Reachable reg → Reachable (monitor_restaurant reg r c now)
  | tick {reg : Registry} (statuses : Restaurant → CheckResult)
      (sendOk : Int → Bool) (now : Int) (statsOn : Bool) :
      Reachable reg → Reachable (monitor_restaurants reg statuses sendOk now statsOn).registry

end WoltModel

namespace WoltModel

/- Basic lemmas about the registry operations. -/

@[simp] theorem keys_nil : keys [] = [] := rfl

@[simp] theorem keys_cons (p : Restaurant × RestaurantContext) (reg : Registry) :
    keys (p :: reg) = p.1 :: keys reg := rfl

@[simp] theorem keys_append (reg1 reg2 : Registry) :
    keys (reg1 ++ reg2) = keys reg1 ++ keys reg2 := by
  simp [keys]

theorem mem_keys_iff {reg : Registry} {r : Restaurant} :
    r ∈ keys reg ↔ ∃ ctx, (r, ctx) ∈ reg := by
  constructor
  · intro h
    rcases List.mem_map.mp h with ⟨p, hp, hpr⟩
    exact ⟨p.2, by simpa [← hpr] using hp⟩
  · rintro ⟨ctx, hc⟩
    exact List.mem_map.mpr ⟨(r, ctx), hc, rfl⟩

@[simp] theorem lookupCtx_nil (r : Restaurant) : lookupCtx [] r = none := rfl

theorem lookupCtx_cons (p : Restaurant × RestaurantContext) (reg : Registry)
    (r : Restaurant) :
    lookupCtx (p :: reg) r = if p.1 = r then some p.2 else lookupCtx reg r := by
  by_cases h : p.1 = r <;> simp [lookupCtx, List.find?_cons, h]

@[simp] theorem hasKey_nil (r : Restaurant) : hasKey [] r = false := rfl

theorem hasKey_cons (p : Restaurant × RestaurantContext) (reg : Registry)
    (r : Restaurant) :
    hasKey (p :: reg) r = (decide (p.1 = r) || hasKey reg r) := by
  simp [hasKey]

theorem hasKey_iff_mem_keys {reg : Registry} {r : Restaurant} :
    hasKey reg r = true ↔ r ∈ keys reg := by
  induction reg with
  | nil => simp
  | cons p rest ih =>
      by_cases h : p.1 = r
      · simp [hasKey_cons, h]
      · simp [hasKey_cons, h, ih, Ne.symm h]

theorem lookupCtx_eq_of_mem {reg : Registry} {r : Restaurant}
    {ctx : RestaurantContext} (hnd : (keys reg).Nodup) (hm : (r, ctx) ∈ reg) :
    lookupCtx reg r = some ctx := by
  induction reg with
  | nil => cases hm
  | cons p rest ih =>
      rcases List.mem_cons.mp hm with hm | hm
      · rw [← hm, lookupCtx_cons]
        simp
      · have hr : r ∈ keys rest := mem_keys_iff.mpr ⟨ctx, hm⟩
        have hne : p.1 ≠ r := by
          intro he
          exact (List.nodup_cons.mp hnd).1 (he ▸ hr)
        rw [lookupCtx_cons, if_neg hne]
        exact ih (List.nodup_cons.mp hnd).2 hm

theorem ctx_unique {reg : Registry} {r : Restaurant}
    {c1 c2 : RestaurantContext} (hnd : (keys reg).Nodup)
    (h1 : (r, c1) ∈ reg) (h2 : (r, c2) ∈ reg) : c1 = c2 := by
  have e1 := lookupCtx_eq_of_mem hnd h1
  have e2 := lookupCtx_eq_of_mem hnd h2
  rw [e1] at e2
  exact Option.some.inj e2

theorem keys_filter_sublist (reg : Registry)
    (f : Restaurant × RestaurantContext → Bool) :
    List.Sublist (keys (reg.filter f)) (keys reg) :=
  (List.filter_sublist reg).map Prod.fst

theorem keys_filter_nodup {reg : Registry}
    (f : Restaurant × RestaurantContext → Bool) (hnd : (keys reg).Nodup) :
    (keys (reg.filter f)).Nodup :=
  (keys_filter_sublist reg f).nodup hnd

theorem mem_keys_filter_iff {reg : Registry} {r : Restaurant}
    {ctx : RestaurantContext} {f : Restaurant × RestaurantContext → Bool}
    (hnd : (keys reg).Nodup) (hm : (r, ctx) ∈ reg) :
    r ∈ keys (reg.filter f) ↔ f (r, ctx) = true := by
  constructor
  · intro h
    rcases mem_keys_iff.mp h with ⟨ctx2, hc2⟩
    have hmem := List.mem_filter.mp hc2
    have : ctx2 = ctx := ctx_unique hnd hmem.1 hm
    exact this ▸ hmem.2
  · intro h
    exact mem_keys_iff.mpr ⟨ctx, List.mem_filter.mpr ⟨hm, h⟩⟩

theorem lookupCtx_filter {reg : Registry} {r : Restaurant}
    {ctx : RestaurantContext} {f : Restaurant × RestaurantContext → Bool}
    (hnd : (keys reg).Nodup) (hm : (r, ctx) ∈ reg) (hf : f (r, ctx) = true) :
    lookupCtx (reg.filter f) r = some ctx :=
  lookupCtx_eq_of_mem (keys_filter_nodup f hnd) (List.mem_filter.mpr ⟨hm, hf⟩)

theorem eraseKey_eq_filter (reg : Registry) (r : Restaurant) :
    eraseKey reg r = reg.filter (fun p => decide (¬ p.1 = r)) := rfl

theorem lookupCtx_eraseKey_ne {reg : Registry} {r r2 : Restaurant}
    (hne : r2 ≠ r) : lookupCtx (eraseKey reg r) r2 = lookupCtx reg r2 := by
  induction reg with
  | nil => rfl
  | cons p rest ih =>
      by_cases hp : p.1 = r
      · have hpr : p.1 ≠ r2 := by rw [hp]; exact fun he => hne he.symm
        simp only [eraseKey_eq_filter, List.filter_cons] at *
        rw [if_neg (by simpa using hp), lookupCtx_cons, if_neg hpr]
        exact ih
      · simp only [eraseKey_eq_filter, List.filter_cons] at *
        rw [if_pos (by simpa using hp), lookupCtx_cons, lookupCtx_cons]
        by_cases hpr : p.1 = r2
        · rw [if_pos hpr, if_pos hpr]
        · rw [if_neg hpr, if_neg hpr]
          exact ih

@[simp] theorem catMaps_nil (f : α → List β) : catMaps f [] = [] := rfl

@[simp] theorem catMaps_cons (f : α → List β) (a : α) (l : List α) :
    catMaps f (a :: l) = f a ++ catMaps f l := rfl

theorem catMaps_append (f : α → List β) (l1 l2 : List α) :
    catMaps f (l1 ++ l2) = catMaps f l1 ++ catMaps f l2 := by
  induction l1 with
  | nil => rfl
  | cons a rest ih => simp [ih]

theorem catMaps_congr {f g : α → List β} :
    ∀ {l : List α}, (∀ a ∈ l, f a = g a) → catMaps f l = catMaps g l := by
  intro l
  induction l with
  | nil => intro _; rfl
  | cons a rest ih =>
      intro h
      simp only [catMaps_cons]
      rw [h a (List.mem_cons_self a rest), ih (fun b hb => h b (List.mem_cons_of_mem a hb))]

theorem lookupCtx_isSome_iff {reg : Registry} {r : Restaurant} :
    (lookupCtx reg r).isSome = true ↔ r ∈ keys reg := by
  induction reg with
  | nil => simp
  | cons p rest ih =>
      rw [lookupCtx_cons]
      by_cases h : p.1 = r
      · simp [h]
      · simp only [if_neg h, keys_cons, List.mem_cons, ih]
        constructor
        · intro hh; exact Or.inr hh
        · rintro (hh | hh)
          · exact absurd hh.symm h
          · exact hh

theorem lookupCtx_eq_none_iff {reg : Registry} {r : Restaurant} :
    lookupCtx reg r = none ↔ r ∉ keys reg := by
  rw [← lookupCtx_isSome_iff]
  cases lookupCtx reg r <;> simp

/- Characterization of a completed scan. -/

theorem notify_chats_ok_spec {sendOk : Int → Bool} {text : String} :
    ∀ {reqs : List MonitorRequest} {ms : List Msg},
      notify_chats sendOk reqs text = Except.ok ms →
      ms = reqs.map (fun q => (q.chat_id, text)) := by
  intro reqs
  induction reqs with
  | nil =>
      intro ms h
      simp only [notify_chats, Except.ok.injEq] at h
      simp [← h]
  | cons q rest ih =>
      intro ms h
      simp only [notify_chats] at h
      by_cases hs : sendOk q.chat_id
      · rw [if_pos hs] at h
        cases hrec : notify_chats sendOk rest text with
        | ok ms2 =>
            rw [hrec] at h
            simp only [Except.ok.injEq] at h
            rw [← h, List.map_cons, ih hrec]
        | error ms2 => rw [hrec] at h; cases h
      · rw [if_neg hs] at h; cases h

/-- The done list a completed scan produces: one entry per terminal restaurant,
in registry order, carrying the success flag. -/
def done_list (statuses : Restaurant → CheckResult) (now : Int) (reg : Registry) :
    List (Restaurant × Bool) :=
  (reg.filter (fun p => (terminal_outcome statuses now p).isSome)).map
    (fun p => (p.1, (terminal_outcome statuses now p).getD false))

theorem done_list_cons (statuses : Restaurant → CheckResult) (now : Int)
    (p : Restaurant × RestaurantContext) (reg : Registry) :
    done_list statuses now (p :: reg) =
      (if (terminal_outcome statuses now p).isSome then
        [(p.1, (terminal_outcome statuses now p).getD false)] else []) ++
      done_list statuses now reg := by
  simp only [done_list, List.filter_cons]
  split <;> simp

theorem done_list_keys (statuses : Restaurant → CheckResult) (now : Int)
    (reg : Registry) :
    (done_list statuses now reg).map Prod.fst =
      keys (reg.filter (fun p => (terminal_outcome statuses now p).isSome)) := by
  simp [done_list, keys, List.map_map]

theorem scan_ok_spec {statuses : Restaurant → CheckResult} {sendOk : Int → Bool}
    {now : Int} :
    ∀ {reg : Registry} {done : List (Restaurant × Bool)} {ms : List Msg},
      scan_restaurants statuses sendOk now reg = Except.ok (done, ms) →
      done = done_list statuses now reg ∧
        ms = catMaps (message_block statuses now) reg := by
  intro reg
  induction reg with
  | nil =>
      intro done ms h
      simp only [scan_restaurants, Except.ok.injEq, Prod.mk.injEq] at h
      simp [done_list, ← h.1, ← h.2]
  | cons p rest ih =>
      intro done ms h
      simp only [scan_restaurants] at h
      cases hst : statuses p.1 with
      | crash => rw [hst] at h; cases h
      | apiError =>
          rw [hst] at h
          cases hn : notify_chats sendOk p.2 errorMessageText with
          | error ms1 => rw [hn] at h; cases h
          | ok ms1 =>
              rw [hn] at h
              cases hs : scan_restaurants statuses sendOk now rest with
              | error km => rw [hs] at h; simp [scanStep] at h
              | ok dm =>
                  obtain ⟨d2, ms2⟩ := dm
                  rw [hs] at h
                  simp only [scanStep, Except.ok.injEq, Prod.mk.injEq] at h
                  obtain ⟨hd, hm⟩ := h
                  obtain ⟨ihd, ihm⟩ := ih hs
                  constructor
                  · rw [← hd, ihd, done_list_cons]
                    simp [terminal_outcome, hst]
                  · rw [← hm, ihm, catMaps_cons, notify_chats_ok_spec hn]
                    simp [message_block, terminal_outcome, outcome_message, hst]
      | ok b =>
          cases b with
          | true =>
              rw [hst] at h
              cases hn : notify_chats sendOk p.2 (onlineMessageText p.1) with
              | error ms1 => rw [hn] at h; cases h
              | ok ms1 =>
                  rw [hn] at h
                  cases hs : scan_restaurants statuses sendOk now rest with
                  | error km => rw [hs] at h; simp [scanStep] at h
                  | ok dm =>
                      obtain ⟨d2, ms2⟩ := dm
                      rw [hs] at h
                      simp only [scanStep, Except.ok.injEq, Prod.mk.injEq] at h
                      obtain ⟨hd, hm⟩ := h
                      obtain ⟨ihd, ihm⟩ := ih hs
                      constructor
                      · rw [← hd, ihd, done_list_cons]
                        simp [terminal_outcome, hst]
                      · rw [← hm, ihm, catMaps_cons, notify_chats_ok_spec hn]
                        simp [message_block, terminal_outcome, outcome_message, hst]
          | false =>
              rw [hst] at h
              cases ht : did_restaurant_timeout p.2 now with
              | none => rw [ht] at h; cases h
              | some tb =>
                  cases tb with
                  | true =>
                      rw [ht] at h
                      cases hn : notify_chats sendOk p.2 (timeoutMessageText p.1) with
                      | error ms1 => rw [hn] at h; cases h
                      | ok ms1 =>
                          rw [hn] at h
                          cases hs : scan_restaurants statuses sendOk now rest with
                          | error km => rw [hs] at h; simp [scanStep] at h
                          | ok dm =>
                              obtain ⟨d2, ms2⟩ := dm
                              rw [hs] at h
                              simp only [scanStep, Except.ok.injEq, Prod.mk.injEq] at h
                              obtain ⟨hd, hm⟩ := h
                              obtain ⟨ihd, ihm⟩ := ih hs
                              constructor
                              · rw [← hd, ihd, done_list_cons]
                                simp [terminal_outcome, hst, ht]
                              · rw [← hm, ihm, catMaps_cons, notify_chats_ok_spec hn]
                                simp [message_block, terminal_outcome, outcome_message, hst, ht]
                  | false =>
                      rw [ht] at h
                      cases hs : scan_restaurants statuses sendOk now rest with
                      | error km => rw [hs] at h; simp [scanStep] at h
                      | ok dm =>
                          obtain ⟨d2, ms2⟩ := dm
                          rw [hs] at h
                          simp only [scanStep, Except.ok.injEq, Prod.mk.injEq,
                            List.nil_append] at h
                          obtain ⟨hd, hm⟩ := h
                          obtain ⟨ihd, ihm⟩ := ih hs
                          constructor
                          · rw [← hd, ihd, done_list_cons]
                            simp [terminal_outcome, hst, ht]
                          · rw [← hm, ihm, catMaps_cons]
                            simp [message_block, terminal_outcome, hst, ht]

/- Characterization of the removal phase. -/

/-- Events one done entry contributes, read against a fixed registry. -/
def events_of (reg : Registry) (statsOn : Bool) (endTime : Int)
    (d : Restaurant × Bool) : List MonitorEvent :=
  match lookupCtx reg d.1 with
  | none => []
  | some ctx =>
      if statsOn then
        ctx.map (fun q => ⟨q.chat_id, q.start_time, endTime, d.1.name, d.2⟩)
      else []

theorem remove_done_spec {statsOn : Bool} {endTime : Int} :
    ∀ {done : List (Restaurant × Bool)} {reg : Registry},
      (keys reg).Nodup → (done.map Prod.fst).Nodup →
      remove_done statsOn endTime reg done =
        (reg.filter (fun p => ! done.any (fun d => decide (d.1 = p.1))),
         catMaps (events_of reg statsOn endTime) done) := by
  intro done
  induction done with
  | nil =>
      intro reg _ _
      simp [remove_done]
  | cons d rest ih =>
      intro reg hnd hdd
      have hdd2 : (rest.map Prod.fst).Nodup := (List.nodup_cons.mp hdd).2
      have hdmem : d.1 ∉ rest.map Prod.fst := (List.nodup_cons.mp hdd).1
      cases hl : lookupCtx reg d.1 with
      | none =>
          have hnk : d.1 ∉ keys reg := lookupCtx_eq_none_iff.mp hl
          simp only [remove_done, stop_monitoring_restaurant, hl]
          rw [ih hnd hdd2, Prod.ext_iff]
          constructor
          · apply List.filter_congr
            intro p hp
            have hne : ¬ d.1 = p.1 := by
              intro he
              exact hnk (he ▸ mem_keys_iff.mpr ⟨p.2, hp⟩)
            simp [List.any_cons, hne]
          · simp [catMaps_cons, events_of, hl]
      | some ctx =>
          have hek : (keys (eraseKey reg d.1)).Nodup :=
            keys_filter_nodup _ hnd
          simp only [remove_done, stop_monitoring_restaurant, hl]
          rw [ih hek hdd2, Prod.ext_iff]
          constructor
          · dsimp only
            rw [eraseKey_eq_filter, List.filter_filter]
            apply List.filter_congr
            intro p hp
            simp [List.any_cons, Bool.not_or, decide_not, Bool.and_comm, eq_comm]
          · dsimp only
            rw [catMaps_cons]
            congr 1
            · simp [events_of, hl]
            · apply catMaps_congr
              intro d2 hd2
              have hne : d2.1 ≠ d.1 := by
                intro he
                exact hdmem (he ▸ List.mem_map_of_mem Prod.fst hd2)
              simp [events_of, lookupCtx_eraseKey_ne hne]

/- Characterization of one completed tick. -/

theorem tick_spec {reg : Registry} {statuses : Restaurant → CheckResult}
    {sendOk : Int → Bool} {now : Int} {statsOn : Bool}
    (hnd : (keys reg).Nodup)
    (hab : (monitor_restaurants reg statuses sendOk now statsOn).aborted = none) :
    monitor_restaurants reg statuses sendOk now statsOn =
      ⟨reg.filter (fun p => ! (terminal_outcome statuses now p).isSome),
       catMaps (message_block statuses now) reg,
       catMaps (event_block statuses now statsOn) reg,
       none⟩ := by
  cases hs : scan_restaurants statuses sendOk now reg with
  | error km =>
      exfalso
      simp [monitor_restaurants, hs] at hab
  | ok dm =>
      obtain ⟨done, ms⟩ := dm
      obtain ⟨hd, hm⟩ := scan_ok_spec hs
      have hdk : (done.map Prod.fst).Nodup := by
        rw [hd, done_list_keys]
        exact keys_filter_nodup _ hnd
      simp only [monitor_restaurants, hs]
      rw [remove_done_spec hnd hdk]
      have hreg : reg.filter (fun p => ! done.any (fun d => decide (d.1 = p.1))) =
          reg.filter (fun p => ! (terminal_outcome statuses now p).isSome) := by
        apply List.filter_congr
        intro p hp
        have : done.any (fun d => decide (d.1 = p.1)) =
            (terminal_outcome statuses now p).isSome := by
          by_cases ht : (terminal_outcome statuses now p).isSome = true
          · rw [ht]
            rw [List.any_eq_true]
            refine ⟨(p.1, (terminal_outcome statuses now p).getD false), ?_, by simp⟩
            rw [hd, done_list]
            exact List.mem_map_of_mem _ (List.mem_filter.mpr ⟨hp, ht⟩)
          · have ht2 : (terminal_outcome statuses now p).isSome = false :=
              Bool.eq_false_iff.mpr ht
            rw [ht2]
            rw [Bool.eq_false_iff]
            intro hany
            rcases List.any_eq_true.mp hany with ⟨d, hdm, hdp⟩
            have : d.1 = p.1 := of_decide_eq_true hdp
            have hk : p.1 ∈ (done.map Prod.fst) := this ▸ List.mem_map_of_mem Prod.fst hdm
            rw [hd, done_list_keys] at hk
            have := (mem_keys_filter_iff hnd hp).mp hk
            exact ht this
        rw [this]
      have hev : catMaps (events_of reg statsOn now) done =
          catMaps (event_block statuses now statsOn) reg := by
        rw [hd]
        have main : ∀ l : Registry, (∀ p ∈ l, p ∈ reg) →
            catMaps (events_of reg statsOn now) (done_list statuses now l) =
              catMaps (event_block statuses now statsOn) l := by
          intro l
          induction l with
          | nil => intro _; rfl
          | cons p rest ih =>
              intro hsub
              rw [done_list_cons, catMaps_append, catMaps_cons,
                ih (fun q hq => hsub q (List.mem_cons_of_mem p hq))]
              congr 1
              cases ht : terminal_outcome statuses now p with
              | none => simp [ht, event_block]
              | some b =>
                  have hlp : lookupCtx reg p.1 = some p.2 :=
                    lookupCtx_eq_of_mem hnd (hsub p (List.mem_cons_self p rest))
                  simp [ht, event_block, events_of, hlp]
        exact main reg (fun _ hq => hq)
      rw [hreg, hm, hev]

/- Preservation of well formedness along subscribe calls and ticks. -/

theorem add_chat_ne_nil (ctx : RestaurantContext) (c now : Int) :
    add_chat ctx c now ≠ [] := by
  unfold add_chat
  split
  · intro he
    rename_i hany
    rw [he] at hany
    simp at hany
  · intro he
    exact absurd (List.append_eq_nil.mp he).2 (by simp)

theorem add_chat_chatIds_nodup {ctx : RestaurantContext} (c now : Int)
    (h : (ctx.map (fun q => q.chat_id)).Nodup) :
    ((add_chat ctx c now).map (fun q => q.chat_id)).Nodup := by
  unfold add_chat
  split
  · exact h
  · rename_i hany
    rw [List.map_append]
    simp only [List.map_cons, List.map_nil]
    rw [List.nodup_append]
    refine ⟨h, List.nodup_singleton c, ?_⟩
    intro x hx hy
    have hxc : x = c := by simpa using hy
    rcases List.mem_map.mp hx with ⟨q, hq, hqc⟩
    have : ctx.any (fun q => decide (q.chat_id = c)) = true :=
      List.any_eq_true.mpr ⟨q, hq, decide_eq_true (hqc.trans hxc)⟩
    simp [this] at hany

theorem wf_monitor_restaurant {reg : Registry} (r : Restaurant) (c now : Int)
    (hwf : WF reg) : WF (monitor_restaurant reg r c now) := by
  obtain ⟨hnd, hctx⟩ := hwf
  unfold monitor_restaurant
  by_cases hk : hasKey reg r
  · rw [if_pos hk]
    constructor
    · have : keys (reg.map (fun p => if p.1 = r then (p.1, add_chat p.2 c now) else p)) =
          keys reg := by
        simp only [keys, List.map_map]
        apply List.map_congr_left
        intro p _
        by_cases hp : p.1 = r <;> simp [hp]
      rw [this]
      exact hnd
    · intro p hp
      rcases List.mem_map.mp hp with ⟨p0, hp0, hup⟩
      by_cases hz : p0.1 = r
      · rw [if_pos hz] at hup
        rw [← hup]
        exact ⟨add_chat_ne_nil p0.2 c now,
               add_chat_chatIds_nodup c now (hctx p0 hp0).2⟩
      · rw [if_neg hz] at hup
        rw [← hup]
        exact hctx p0 hp0
  · rw [if_neg hk]
    constructor
    · rw [keys_append]
      simp only [keys, List.map_cons, List.map_nil]
      rw [List.nodup_append]
      refine ⟨hnd, List.nodup_singleton r, ?_⟩
      intro x hx hy
      have hxr : x = r := by simpa using hy
      rw [hxr] at hx
      exact hk (hasKey_iff_mem_keys.mpr hx)
    · intro p hp
      rcases List.mem_append.mp hp with hp | hp
      · exact hctx p hp
      · have : p = (r, add_chat [] c now) := by simpa using hp
        rw [this]
        exact ⟨add_chat_ne_nil [] c now,
               @add_chat_chatIds_nodup [] c now (by exact List.nodup_nil)⟩

theorem remove_done_fst_sublist (statsOn : Bool) (endTime : Int) :
    ∀ (done : List (Restaurant × Bool)) (reg : Registry),
      List.Sublist (remove_done statsOn endTime reg done).1 reg := by
  intro done
  induction done with
  | nil => intro reg; simp [remove_done]
  | cons d rest ih =>
      intro reg
      simp only [remove_done]
      cases hl : lookupCtx reg d.1 with
      | none =>
          simp only [stop_monitoring_restaurant, hl]
          exact ih reg
      | some ctx =>
          simp only [stop_monitoring_restaurant, hl]
          exact (ih (eraseKey reg d.1)).trans (List.filter_sublist reg)

theorem tick_registry_sublist (reg : Registry) (statuses : Restaurant → CheckResult)
    (sendOk : Int → Bool) (now : Int) (statsOn : Bool) :
    List.Sublist (monitor_restaurants reg statuses sendOk now statsOn).registry reg := by
  unfold monitor_restaurants
  cases hs : scan_restaurants statuses sendOk now reg with
  | error km => exact List.Sublist.refl reg
  | ok dm => exact remove_done_fst_sublist statsOn now dm.1 reg

theorem wf_of_sublist {reg1 reg2 : Registry} (hs : List.Sublist reg1 reg2)
    (hwf : WF reg2) : WF reg1 :=
  ⟨(hs.map Prod.fst).nodup hwf.1, fun p hp => hwf.2 p (hs.subset hp)⟩

theorem reachable_wf {reg : Registry} (h : Reachable reg) : WF reg := by
  induction h with
  | empty => exact ⟨List.nodup_nil, fun p hp => absurd hp (List.not_mem_nil p)⟩
  | subscribe r c now _ ih => exact wf_monitor_restaurant r c now ih
  | tick statuses sendOk now statsOn _ ih =>
      exact wf_of_sublist (tick_registry_sublist _ statuses sendOk now statsOn) ih

/- Concrete fixtures used by witnesses and counterexamples. -/

def pizzaPlace : Restaurant := ⟨"Pizza Place", "pizza-place"⟩

def sushiBar : Restaurant := ⟨"Sushi Bar", "sushi-bar"⟩

/- Claim theorems. -/

/-- C1: on a completed tick, every restaurant whose watch reaches a terminal
outcome is removed from the registry (the model mutates the registry only in
the removal phase, after the scan, and the message list of the whole tick is
computed from the unmutated registry), each of its subscribed chats is sent
exactly one message describing the outcome (the block lists one message per
subscription and the chat ids of the watch are distinct), and when a
statistics sink is configured exactly one MonitorEvent per removed subscriber
is reported, whose succeeded flag is true iff the outcome is ONLINE. -/
theorem c1_terminal_outcome_tick
    (reg : Registry) (statuses : Restaurant → CheckResult) (sendOk : Int → Bool)
    (now : Int) (statsOn : Bool) (r : Restaurant) (ctx : RestaurantContext)
    (b : Bool) (hwf : WF reg) (hmem : (r, ctx) ∈ reg)
    (hterm : terminal_outcome statuses now (r, ctx) = some b)
    (hab : (monitor_restaurants reg statuses sendOk now statsOn).aborted = none) :
    r ∉ keys (monitor_restaurants reg statuses sendOk now statsOn).registry ∧
    (∃ ms1 ms2, (monitor_restaurants reg statuses sendOk now statsOn).messages =
        ms1 ++ ctx.map (fun q => (q.chat_id, outcome_message statuses (r, ctx))) ++ ms2) ∧
    (ctx.map (fun q => q.chat_id)).Nodup ∧
    (statsOn = true → ∃ es1 es2,
        (monitor_restaurants reg statuses sendOk now statsOn).events =
          es1 ++ ctx.map (fun q => ⟨q.chat_id, q.start_time, now, r.name, b⟩) ++ es2) ∧
    (b = true ↔ statuses r = CheckResult.ok true) := by
  have hspec := tick_spec hwf.1 hab
  have hregc : (monitor_restaurants reg statuses sendOk now statsOn).registry =
      reg.filter (fun p => ! (terminal_outcome statuses now p).isSome) := by
    rw [hspec]
  have hmsgc : (monitor_restaurants reg statuses sendOk now statsOn).messages =
      catMaps (message_block statuses now) reg := by
    rw [hspec]
  have hevc : (monitor_restaurants reg statuses sendOk now statsOn).events =
      catMaps (event_block statuses now statsOn) reg := by
    rw [hspec]
  obtain ⟨l1, l2, hsplit⟩ := List.append_of_mem hmem
  refine ⟨?_, ?_, (hwf.2 (r, ctx) hmem).2, ?_, ?_⟩
  · rw [hregc]
    intro hk
    have := (mem_keys_filter_iff hwf.1 hmem).mp hk
    rw [hterm] at this
    simp at this
  · refine ⟨catMaps (message_block statuses now) l1,
            catMaps (message_block statuses now) l2, ?_⟩
    have hblock : message_block statuses now (r, ctx) =
        ctx.map (fun q => (q.chat_id, outcome_message statuses (r, ctx))) := by
      simp [message_block, hterm]
    rw [hmsgc, hsplit, catMaps_append, catMaps_cons, hblock, List.append_assoc]
  · intro hstats
    refine ⟨catMaps (event_block statuses now statsOn) l1,
            catMaps (event_block statuses now statsOn) l2, ?_⟩
    have hblock : event_block statuses now statsOn (r, ctx) =
        ctx.map (fun q => ⟨q.chat_id, q.start_time, now, r.name, b⟩) := by
      simp [event_block, hterm, hstats]
    rw [hevc, hsplit, catMaps_append, catMaps_cons, hblock, List.append_assoc]
  · unfold terminal_outcome at hterm
    cases hst : statuses r with
    | crash => rw [hst] at hterm; cases hterm
    | apiError =>
        rw [hst] at hterm
        have hb : b = false := by
          simpa using hterm.symm
        subst hb
        simp [hst]
    | ok bb =>
        cases bb with
        | true =>
            rw [hst] at hterm
            have hb : b = true := by simpa using hterm.symm
            subst hb
            simp [hst]
        | false =>
            rw [hst] at hterm
            cases ht : did_restaurant_timeout ctx now with
            | none => rw [ht] at hterm; cases hterm
            | some tb =>
                cases tb with
                | true =>
                    rw [ht] at hterm
                    have hb : b = false := by simpa using hterm.symm
                    subst hb
                    simp [hst]
                | false => rw [ht] at hterm; cases hterm

/-- Witness for C1 at a concrete online tick with one subscribed chat. -/
theorem c1_terminal_outcome_tick_witness :
    WF [(pizzaPlace, [⟨1, 0⟩])] ∧
    (pizzaPlace, ([⟨1, 0⟩] : RestaurantContext)) ∈
      [(pizzaPlace, ([⟨1, 0⟩] : RestaurantContext))] ∧
    terminal_outcome (fun _ => CheckResult.ok true) 100 (pizzaPlace, [⟨1, 0⟩]) =
      some true ∧
    (monitor_restaurants [(pizzaPlace, [⟨1, 0⟩])] (fun _ => CheckResult.ok true)
      (fun _ => true) 100 true).aborted = none ∧
    (pizzaPlace ∉ keys (monitor_restaurants [(pizzaPlace, [⟨1, 0⟩])]
      (fun _ => CheckResult.ok true) (fun _ => true) 100 true).registry ∧
     (∃ ms1 ms2, (monitor_restaurants [(pizzaPlace, [⟨1, 0⟩])]
        (fun _ => CheckResult.ok true) (fun _ => true) 100 true).messages =
        ms1 ++ ([⟨1, 0⟩] : RestaurantContext).map
          (fun q => (q.chat_id,
            outcome_message (fun _ => CheckResult.ok true) (pizzaPlace, [⟨1, 0⟩]))) ++ ms2) ∧
     (([⟨1, 0⟩] : RestaurantContext).map (fun q => q.chat_id)).Nodup ∧
     (true = true → ∃ es1 es2, (monitor_restaurants [(pizzaPlace, [⟨1, 0⟩])]
        (fun _ => CheckResult.ok true) (fun _ => true) 100 true).events =
        es1 ++ ([⟨1, 0⟩] : RestaurantContext).map
          (fun q => ⟨q.chat_id, q.start_time, 100, pizzaPlace.name, true⟩) ++ es2) ∧
     (true = true ↔ (fun _ => CheckResult.ok true) pizzaPlace = CheckResult.ok true)) :=
  ⟨by constructor <;> decide, by decide, by decide, by decide,
   c1_terminal_outcome_tick [(pizzaPlace, [⟨1, 0⟩])] (fun _ => CheckResult.ok true)
     (fun _ => true) 100 true pizzaPlace [⟨1, 0⟩] true
     (by constructor <;> decide) (by decide) (by decide) (by decide)⟩

/-- C2: is_restaurant_online answers true exactly when the response carries
online = true and delivery_enabled = true; in particular online = true with
delivery disabled yields false, and a restaurant whose status check came back
false and whose watch has not timed out stays in the registry untouched by a
completed tick. -/
theorem c2_check_online_both_flags
    (onl de : Bool) (tail : List StatusItem)
    (reg : Registry) (statuses : Restaurant → CheckResult) (sendOk : Int → Bool)
    (now : Int) (statsOn : Bool) (r : Restaurant) (ctx : RestaurantContext)
    (hwf : WF reg) (hmem : (r, ctx) ∈ reg)
    (hoff : statuses r = CheckResult.ok false)
    (hnt : did_restaurant_timeout ctx now = some false)
    (hab : (monitor_restaurants reg statuses sendOk now statsOn).aborted = none) :
    is_restaurant_online ⟨some (⟨some onl, some ⟨some de⟩⟩ :: tail)⟩ =
      Except.ok (onl && de) ∧
    is_restaurant_online ⟨some (⟨some true, some ⟨some false⟩⟩ :: tail)⟩ =
      Except.ok false ∧
    lookupCtx (monitor_restaurants reg statuses sendOk now statsOn).registry r =
      some ctx := by
  refine ⟨?_, ?_, ?_⟩
  · cases onl <;> cases de <;> rfl
  · rfl
  · have hspec := tick_spec hwf.1 hab
    have hregc : (monitor_restaurants reg statuses sendOk now statsOn).registry =
        reg.filter (fun p => ! (terminal_outcome statuses now p).isSome) := by
      rw [hspec]
    rw [hregc]
    apply lookupCtx_filter hwf.1 hmem
    simp [terminal_outcome, hoff, hnt]

/-- Witness for C2: online with delivery disabled is reported unavailable, and
a one hour fifty nine minute old offline watch survives the tick. -/
theorem c2_check_online_both_flags_witness :
    WF [(pizzaPlace, [⟨1, 0⟩])] ∧
    (pizzaPlace, ([⟨1, 0⟩] : RestaurantContext)) ∈
      [(pizzaPlace, ([⟨1, 0⟩] : RestaurantContext))] ∧
    (fun _ : Restaurant => CheckResult.ok false) pizzaPlace = CheckResult.ok false ∧
    did_restaurant_timeout [⟨1, 0⟩] 7140 = some false ∧
    (monitor_restaurants [(pizzaPlace, [⟨1, 0⟩])] (fun _ => CheckResult.ok false)
      (fun _ => true) 7140 false).aborted = none ∧
    (is_restaurant_online ⟨some [⟨some true, some ⟨some false⟩⟩]⟩ =
        Except.ok (true && false) ∧
      is_restaurant_online ⟨some [⟨some true, some ⟨some false⟩⟩]⟩ = Except.ok false ∧
      lookupCtx (monitor_restaurants [(pizzaPlace, [⟨1, 0⟩])]
          (fun _ => CheckResult.ok false) (fun _ => true) 7140 false).registry
        pizzaPlace = some [⟨1, 0⟩]) :=
  ⟨by constructor <;> decide, by decide, by decide, by decide, by decide,
   c2_check_online_both_flags true false [] [(pizzaPlace, [⟨1, 0⟩])]
     (fun _ => CheckResult.ok false) (fun _ => true) 7140 false pizzaPlace [⟨1, 0⟩]
     (by constructor <;> decide) (by decide) (by decide) (by decide) (by decide)⟩

/-- C3 counterexample: a structurally unexpected search response whose
sections list is present but empty (the expected first list element is
absent) makes lookup_restaurant fail with a raw IndexError, which is not the
DirectoryError (WoltAPIException) the claim requires for every structurally
unexpected response. -/
theorem c3_counterexample :
    lookup_restaurant ⟨some []⟩ = Except.error PyError.indexError ∧
    isDirectoryError PyError.indexError = false :=
  ⟨rfl, rfl⟩

/-- C3 amended: only the dict keys read inside a try block are translated to
DirectoryError: a missing sections key in search, and a missing results,
online, delivery_specs or delivery_enabled key in check_online. An absent
list element (empty sections or results list) escapes as an uncaught
IndexError, and the fields search reads after picking the first section (the
section name, the items key, and the title, venue and slug of an item) escape
as uncaught KeyErrors. The no-content sentinel still yields an empty result
list and does not raise. -/
theorem c3_shape_errors :
    (lookup_restaurant ⟨none⟩ =
      Except.error (PyError.woltAPIException sectionsMissingMsg)) ∧
    (lookup_restaurant ⟨some []⟩ = Except.error PyError.indexError) ∧
    (∀ (items : Option (List SearchItem)) (tail : List SearchSection),
      lookup_restaurant ⟨some (⟨some "no-content", items⟩ :: tail)⟩ =
        Except.ok []) ∧
    (∀ (items : Option (List SearchItem)) (tail : List SearchSection),
      lookup_restaurant ⟨some (⟨none, items⟩ :: tail)⟩ =
        Except.error (PyError.keyError "name")) ∧
    (∀ (tail : List SearchSection),
      lookup_restaurant ⟨some (⟨some "venues", none⟩ :: tail)⟩ =
        Except.error (PyError.keyError "items")) ∧
    (∀ (v : Option Venue) (itail : List SearchItem) (tail : List SearchSection),
      lookup_restaurant ⟨some (⟨some "venues", some (⟨none, v⟩ :: itail)⟩ :: tail)⟩ =
        Except.error (PyError.keyError "title")) ∧
    (is_restaurant_online ⟨none⟩ =
      Except.error (PyError.woltAPIException invalidResponseMsg)) ∧
    (is_restaurant_online ⟨some []⟩ = Except.error PyError.indexError) ∧
    (∀ (ds : Option DeliverySpecs) (tail : List StatusItem),
      is_restaurant_online ⟨some (⟨none, ds⟩ :: tail)⟩ =
        Except.error (PyError.woltAPIException invalidResponseMsg)) ∧
    (∀ (tail : List StatusItem),
      is_restaurant_online ⟨some (⟨some true, none⟩ :: tail)⟩ =
        Except.error (PyError.woltAPIException invalidResponseMsg)) ∧
    (∀ (tail : List StatusItem),
      is_restaurant_online ⟨some (⟨some true, some ⟨none⟩⟩ :: tail)⟩ =
        Except.error (PyError.woltAPIException invalidResponseMsg)) :=
  ⟨rfl, rfl,
   fun _ _ => rfl,
   fun _ _ => rfl,
   fun _ => rfl,
   fun _ _ _ => rfl,
   rfl, rfl,
   fun _ _ => rfl,
   fun _ => rfl,
   fun _ => rfl⟩

/- Supporting lemmas for the subscribe idempotence claim. -/

theorem lookupCtx_append (l1 l2 : Registry) (r : Restaurant) :
    lookupCtx (l1 ++ l2) r =
      match lookupCtx l1 r with
      | some c => some c
      | none => lookupCtx l2 r := by
  induction l1 with
  | nil => simp
  | cons p rest ih =>
      rw [List.cons_append, lookupCtx_cons, lookupCtx_cons]
      by_cases h : p.1 = r
      · rw [if_pos h, if_pos h]
      · rw [if_neg h, if_neg h, ih]

theorem lookupCtx_map_add_chat (reg : Registry) (r : Restaurant) (c t : Int) :
    lookupCtx (reg.map (fun p => if p.1 = r then (p.1, add_chat p.2 c t) else p)) r =
      (lookupCtx reg r).map (fun ctx => add_chat ctx c t) := by
  induction reg with
  | nil => simp
  | cons p rest ih =>
      by_cases h : p.1 = r
      · simp [List.map_cons, lookupCtx_cons, h]
      · simp [List.map_cons, lookupCtx_cons, h, ih]

theorem hasKey_eq_lookupCtx_isSome (reg : Registry) (r : Restaurant) :
    hasKey reg r = (lookupCtx reg r).isSome := by
  by_cases h : hasKey reg r
  · rw [h]
    exact (lookupCtx_isSome_iff.mpr (hasKey_iff_mem_keys.mp h)).symm
  · have h2 : hasKey reg r = false := Bool.eq_false_iff.mpr h
    rw [h2]
    have : r ∉ keys reg := fun hk => h (hasKey_iff_mem_keys.mpr hk)
    have h3 : lookupCtx reg r = none := lookupCtx_eq_none_iff.mpr this
    rw [h3]
    rfl

theorem lookupCtx_monitor_restaurant_self (reg : Registry) (r : Restaurant)
    (c t : Int) :
    lookupCtx (monitor_restaurant reg r c t) r =
      some (add_chat ((lookupCtx reg r).getD []) c t) := by
  unfold monitor_restaurant
  by_cases hk : hasKey reg r
  · rw [if_pos hk, lookupCtx_map_add_chat]
    rw [hasKey_eq_lookupCtx_isSome] at hk
    cases hl : lookupCtx reg r with
    | none => rw [hl] at hk; cases hk
    | some ctx0 => simp [hl]
  · rw [if_neg hk, lookupCtx_append]
    rw [hasKey_eq_lookupCtx_isSome] at hk
    cases hl : lookupCtx reg r with
    | none =>
        rw [lookupCtx_cons]
        simp
    | some ctx0 => rw [hl] at hk; simp at hk

theorem lookupCtx_mem {reg : Registry} {r : Restaurant} {ctx : RestaurantContext}
    (h : lookupCtx reg r = some ctx) : (r, ctx) ∈ reg := by
  induction reg with
  | nil => cases h
  | cons p rest ih =>
      rw [lookupCtx_cons] at h
      by_cases hp : p.1 = r
      · rw [if_pos hp] at h
        have : p = (r, ctx) := by
          obtain ⟨p1, p2⟩ := p
          simp only [Option.some.injEq] at h
          simp only at hp
          rw [hp, h]
        exact this ▸ List.mem_cons_self p rest
      · rw [if_neg hp] at h
        exact List.mem_cons_of_mem p (ih h)

theorem add_chat_any_self (ctx : RestaurantContext) (c t : Int) :
    (add_chat ctx c t).any (fun q => decide (q.chat_id = c)) = true := by
  unfold add_chat
  split
  · assumption
  · simp

theorem add_chat_of_any {ctx : RestaurantContext} {c : Int} (t : Int)
    (h : ctx.any (fun q => decide (q.chat_id = c)) = true) :
    add_chat ctx c t = ctx := by
  unfold add_chat
  rw [if_pos h]

theorem filter_chat_of_not_any {ctx : RestaurantContext} {c : Int}
    (h : ctx.any (fun q => decide (q.chat_id = c)) = false) :
    ctx.filter (fun q => decide (q.chat_id = c)) = [] := by
  induction ctx with
  | nil => rfl
  | cons q rest ih =>
      rw [List.any_cons, Bool.or_eq_false_iff] at h
      rw [List.filter_cons, if_neg (by simp [h.1] : ¬ (decide (q.chat_id = c) = true))]
      exact ih h.2

theorem filter_chat_single {ctx : RestaurantContext} {c : Int}
    (hnd : (ctx.map (fun q => q.chat_id)).Nodup)
    (hany : ctx.any (fun q => decide (q.chat_id = c)) = true) :
    (ctx.filter (fun q => decide (q.chat_id = c))).length = 1 := by
  induction ctx with
  | nil => cases hany
  | cons q rest ih =>
      rw [List.map_cons, List.nodup_cons] at hnd
      by_cases hq : q.chat_id = c
      · rw [List.filter_cons, if_pos (by simp [hq])]
        have hrest : rest.any (fun q => decide (q.chat_id = c)) = false := by
          rw [Bool.eq_false_iff]
          intro hr
          rcases List.any_eq_true.mp hr with ⟨q2, hq2, hq2c⟩
          have : q2.chat_id = c := of_decide_eq_true hq2c
          exact hnd.1 (by
            rw [hq, ← this]
            exact List.mem_map_of_mem (fun q => q.chat_id) hq2)
        rw [filter_chat_of_not_any hrest]
        rfl
      · rw [List.filter_cons, if_neg (by simp [hq])]
        rw [List.any_cons, Bool.or_eq_true_iff] at hany
        rcases hany with hany | hany
        · exact absurd (of_decide_eq_true hany) hq
        · exact ih hnd.2 hany

/-- C4: subscribing the same chat to the same restaurant a second time leaves
the watch set with exactly one subscription for that chat, whose start time is
unchanged from the state after the first call; and when the chat was not
subscribed before, that single subscription carries the start time of the
first call (the wait clock is not restarted by the second call). -/
theorem c4_subscribe_idempotent
    (reg : Registry) (r : Restaurant) (c t1 t2 : Int) (hwf : WF reg) :
    ∃ ctx1 ctx2,
      lookupCtx (monitor_restaurant reg r c t1) r = some ctx1 ∧
      lookupCtx (monitor_restaurant (monitor_restaurant reg r c t1) r c t2) r =
        some ctx2 ∧
      ctx2.filter (fun q => decide (q.chat_id = c)) =
        ctx1.filter (fun q => decide (q.chat_id = c)) ∧
      (ctx1.filter (fun q => decide (q.chat_id = c))).length = 1 ∧
      (subscribed reg r c = false →
        ctx1.filter (fun q => decide (q.chat_id = c)) = [⟨c, t1⟩]) := by
  have h1 := lookupCtx_monitor_restaurant_self reg r c t1
  have h2 := lookupCtx_monitor_restaurant_self (monitor_restaurant reg r c t1) r c t2
  rw [h1] at h2
  have hctx2 : add_chat ((some (add_chat ((lookupCtx reg r).getD []) c t1)).getD []) c t2 =
      add_chat ((lookupCtx reg r).getD []) c t1 := by
    rw [Option.getD_some]
    exact add_chat_of_any t2 (add_chat_any_self _ c t1)
  rw [hctx2] at h2
  refine ⟨add_chat ((lookupCtx reg r).getD []) c t1,
          add_chat ((lookupCtx reg r).getD []) c t1, h1, h2, rfl, ?_, ?_⟩
  · cases hl : lookupCtx reg r with
    | none =>
        simp only [Option.getD_none]
        unfold add_chat
        rw [if_neg (by simp)]
        simp
    | some ctx0 =>
        simp only [Option.getD_some]
        have hmem0 := lookupCtx_mem hl
        have hnd0 : (ctx0.map (fun q => q.chat_id)).Nodup := (hwf.2 _ hmem0).2
        by_cases hany : ctx0.any (fun q => decide (q.chat_id = c)) = true
        · rw [add_chat_of_any t1 hany]
          exact filter_chat_single hnd0 hany
        · have hanyf : ctx0.any (fun q => decide (q.chat_id = c)) = false :=
            Bool.eq_false_iff.mpr hany
          unfold add_chat
          rw [if_neg (by simp [hanyf])]
          rw [List.filter_append, filter_chat_of_not_any hanyf]
          simp
  · intro hsub
    cases hl : lookupCtx reg r with
    | none =>
        simp only [Option.getD_none]
        unfold add_chat
        rw [if_neg (by simp)]
        simp
    | some ctx0 =>
        simp only [Option.getD_some]
        have hanyf : ctx0.any (fun q => decide (q.chat_id = c)) = false := by
          unfold subscribed at hsub
          rw [hl] at hsub
          exact hsub
        unfold add_chat
        rw [if_neg (by simp [hanyf])]
        rw [List.filter_append, filter_chat_of_not_any hanyf]
        simp

/-- Witness for C4 on the empty registry with a fresh chat. -/
theorem c4_subscribe_idempotent_witness :
    WF ([] : Registry) ∧
    (∃ ctx1 ctx2,
      lookupCtx (monitor_restaurant [] pizzaPlace 7 3) pizzaPlace = some ctx1 ∧
      lookupCtx (monitor_restaurant (monitor_restaurant [] pizzaPlace 7 3)
        pizzaPlace 7 9) pizzaPlace = some ctx2 ∧
      ctx2.filter (fun q => decide (q.chat_id = 7)) =
        ctx1.filter (fun q => decide (q.chat_id = 7)) ∧
      (ctx1.filter (fun q => decide (q.chat_id = 7))).length = 1 ∧
      (subscribed [] pizzaPlace 7 = false →
        ctx1.filter (fun q => decide (q.chat_id = 7)) = [⟨7, 3⟩])) :=
  ⟨⟨List.nodup_nil, fun p hp => absurd hp (List.not_mem_nil p)⟩,
   c4_subscribe_idempotent [] pizzaPlace 7 3 9
     ⟨List.nodup_nil, fun p hp => absurd hp (List.not_mem_nil p)⟩⟩

/-- C5: on a completed tick, a watched restaurant found offline is removed
(outcome TIMED_OUT) exactly when the earliest start time among its current
subscribers lies strictly more than TIMEOUT_SECONDS (two hours) before now;
otherwise its watch stays in the registry with the identical context. -/
theorem c5_timeout_exactly
    (reg : Registry) (statuses : Restaurant → CheckResult) (sendOk : Int → Bool)
    (now : Int) (statsOn : Bool) (r : Restaurant) (ctx : RestaurantContext)
    (hwf : WF reg) (hmem : (r, ctx) ∈ reg)
    (hoff : statuses r = CheckResult.ok false)
    (hab : (monitor_restaurants reg statuses sendOk now statsOn).aborted = none) :
    ∃ e, earliest_start_time ctx = some e ∧
      (r ∉ keys (monitor_restaurants reg statuses sendOk now statsOn).registry ↔
        now - e > TIMEOUT_SECONDS) ∧
      (¬ now - e > TIMEOUT_SECONDS →
        lookupCtx (monitor_restaurants reg statuses sendOk now statsOn).registry r =
          some ctx) := by
  have hne : ctx ≠ [] := (hwf.2 (r, ctx) hmem).1
  obtain ⟨q, rest, hq⟩ := List.exists_cons_of_ne_nil hne
  have hearl : earliest_start_time ctx =
      some (rest.foldl (fun a b => min a b.start_time) q.start_time) := by
    rw [hq]; rfl
  set e := rest.foldl (fun a b => min a b.start_time) q.start_time with he
  have hdid : did_restaurant_timeout ctx now =
      some (decide (now - e > TIMEOUT_SECONDS)) := by
    rw [did_restaurant_timeout, hearl]
    rfl
  have hspec := tick_spec hwf.1 hab
  have hregc : (monitor_restaurants reg statuses sendOk now statsOn).registry =
      reg.filter (fun p => ! (terminal_outcome statuses now p).isSome) := by
    rw [hspec]
  refine ⟨e, hearl, ?_, ?_⟩
  · rw [hregc]
    by_cases hgt : now - e > TIMEOUT_SECONDS
    · have hterm : terminal_outcome statuses now (r, ctx) = some false := by
        simp [terminal_outcome, hoff, hdid, hgt]
      constructor
      · intro _; exact hgt
      · intro _ hk
        have := (mem_keys_filter_iff hwf.1 hmem).mp hk
        rw [hterm] at this
        simp at this
    · have hterm : terminal_outcome statuses now (r, ctx) = none := by
        simp [terminal_outcome, hoff, hdid, hgt]
      constructor
      · intro hnk
        exfalso
        apply hnk
        apply (mem_keys_filter_iff hwf.1 hmem).mpr
        rw [hterm]
        rfl
      · intro hgt2; exact absurd hgt2 hgt
  · intro hgt
    have hterm : terminal_outcome statuses now (r, ctx) = none := by
      simp [terminal_outcome, hoff, hdid, hgt]
    rw [hregc]
    apply lookupCtx_filter hwf.1 hmem
    rw [hterm]
    rfl

/-- Witness for C5: an offline watch one hour and fifty nine minutes old is
left active with its context untouched. -/
theorem c5_timeout_exactly_witness :
    WF [(pizzaPlace, [⟨1, 0⟩])] ∧
    (pizzaPlace, ([⟨1, 0⟩] : RestaurantContext)) ∈
      [(pizzaPlace, ([⟨1, 0⟩] : RestaurantContext))] ∧
    (fun _ : Restaurant => CheckResult.ok false) pizzaPlace = CheckResult.ok false ∧
    (monitor_restaurants [(pizzaPlace, [⟨1, 0⟩])] (fun _ => CheckResult.ok false)
      (fun _ => true) 7140 true).aborted = none ∧
    (∃ e, earliest_start_time [⟨1, 0⟩] = some e ∧
      (pizzaPlace ∉ keys (monitor_restaurants [(pizzaPlace, [⟨1, 0⟩])]
          (fun _ => CheckResult.ok false) (fun _ => true) 7140 true).registry ↔
        (7140 : Int) - e > TIMEOUT_SECONDS) ∧
      (¬ (7140 : Int) - e > TIMEOUT_SECONDS →
        lookupCtx (monitor_restaurants [(pizzaPlace, [⟨1, 0⟩])]
            (fun _ => CheckResult.ok false) (fun _ => true) 7140 true).registry
          pizzaPlace = some [⟨1, 0⟩])) :=
  ⟨by constructor <;> decide, by decide, by decide, by decide,
   c5_timeout_exactly [(pizzaPlace, [⟨1, 0⟩])] (fun _ => CheckResult.ok false)
     (fun _ => true) 7140 true pizzaPlace [⟨1, 0⟩]
     (by constructor <;> decide) (by decide) (by decide) (by decide)⟩

/-- C6: in every state reachable by subscribe calls and monitor ticks, the
registry keys are pairwise distinct and every key maps to a nonempty
subscriber set; hence a restaurant is a key iff at least one chat is
subscribed to it, and no restaurant appears as a key twice. -/
theorem c6_registry_invariant (reg : Registry) (h : Reachable reg) :
    (keys reg).Nodup ∧ ∀ p ∈ reg, p.2 ≠ [] :=
  ⟨(reachable_wf h).1, fun p hp => ((reachable_wf h).2 p hp).1⟩

/-- Witness for C6 at the state reached by one subscribe call. -/
theorem c6_registry_invariant_witness :
    Reachable (monitor_restaurant [] pizzaPlace 1 0) ∧
    ((keys (monitor_restaurant [] pizzaPlace 1 0)).Nodup ∧
      ∀ p ∈ monitor_restaurant [] pizzaPlace 1 0, p.2 ≠ []) :=
  ⟨Reachable.subscribe pizzaPlace 1 0 Reachable.empty,
   c6_registry_invariant (monitor_restaurant [] pizzaPlace 1 0)
     (Reachable.subscribe pizzaPlace 1 0 Reachable.empty)⟩

/- C7 fixtures. -/

def c7Registry : Registry := [(pizzaPlace, [⟨1, 0⟩]), (sushiBar, [⟨2, 0⟩])]

/-- C7 counterexample: both restaurants are online, and delivery to chat 1
fails. The tick aborts with a delivery failure: no message at all is sent
(chat 2 in particular receives none although its restaurant reached ONLINE),
no restaurant is removed, and no event is reported — refuting that a delivery
failure is logged and ignored and never aborts the processing of the
remaining chats and restaurants of the tick. -/
theorem c7_counterexample :
    monitor_restaurants c7Registry (fun _ => CheckResult.ok true)
        (fun c => decide (c ≠ 1)) 0 true =
      ⟨c7Registry, [], [], some TickAbort.deliveryFailure⟩ := by
  rfl

/-- C7 amended: a delivery failure during the scan is not swallowed: the tick
aborts, and an aborted tick leaves the registry unchanged, reports no events,
and skips the scheduling of the next monitor run. -/
theorem c7_abort_semantics
    (reg : Registry) (statuses : Restaurant → CheckResult) (sendOk : Int → Bool)
    (now : Int) (statsOn : Bool) (k : TickAbort)
    (hab : (monitor_restaurants reg statuses sendOk now statsOn).aborted = some k) :
    (monitor_restaurants reg statuses sendOk now statsOn).registry = reg ∧
    (monitor_restaurants reg statuses sendOk now statsOn).events = [] ∧
    ∀ k2 : Nat, (monitor_restaurants_job reg statuses sendOk now statsOn k2).2 =
      none := by
  unfold monitor_restaurants at *
  cases hs : scan_restaurants statuses sendOk now reg with
  | error km =>
      refine ⟨rfl, rfl, ?_⟩
      intro k2
      unfold monitor_restaurants_job monitor_restaurants
      rw [hs]
      simp
  | ok dm => rw [hs] at hab; simp at hab

/-- Witness for C7 amended semantics at the concrete aborting tick. -/
theorem c7_abort_semantics_witness :
    (monitor_restaurants c7Registry (fun _ => CheckResult.ok true)
        (fun c => decide (c ≠ 1)) 0 true).aborted =
      some TickAbort.deliveryFailure ∧
    ((monitor_restaurants c7Registry (fun _ => CheckResult.ok true)
        (fun c => decide (c ≠ 1)) 0 true).registry = c7Registry ∧
     (monitor_restaurants c7Registry (fun _ => CheckResult.ok true)
        (fun c => decide (c ≠ 1)) 0 true).events = [] ∧
     ∀ k2 : Nat, (monitor_restaurants_job c7Registry (fun _ => CheckResult.ok true)
        (fun c => decide (c ≠ 1)) 0 true k2).2 = none) :=
  ⟨by decide,
   c7_abort_semantics c7Registry (fun _ => CheckResult.ok true)
     (fun c => decide (c ≠ 1)) 0 true TickAbort.deliveryFailure (by decide)⟩

/-- C8 counterexample: the upper endpoint of the claimed 10 to 20 second
window is never drawn — random.randrange excludes its upper bound, so the
interval 20 is outside the range of schedule_monitor_interval. -/
theorem c8_counterexample : (20 : Nat) ∉ Set.range schedule_monitor_interval := by
  rintro ⟨k, hk⟩
  unfold schedule_monitor_interval randrange MONITOR_INTERVAL_RANGE_SEC at hk
  simp only at hk
  have : k % 10 < 10 := Nat.mod_lt k (by norm_num)
  omega

/-- C8 amended: after every completed tick exactly one next run is scheduled,
unconditionally — also on the empty registry — with a delay of at least 10 and
strictly less than 20 seconds; every integer delay from 10 to 19 is attained
and nothing else. -/
theorem c8_schedule_amended :
    (∀ k, 10 ≤ schedule_monitor_interval k ∧ schedule_monitor_interval k < 20) ∧
    (∀ v, 10 ≤ v → v < 20 → ∃ k, schedule_monitor_interval k = v) ∧
    (∀ (reg : Registry) (statuses : Restaurant → CheckResult) (sendOk : Int → Bool)
        (now : Int) (statsOn : Bool) (k : Nat),
      (monitor_restaurants reg statuses sendOk now statsOn).aborted = none →
      (monitor_restaurants_job reg statuses sendOk now statsOn k).2 =
        some (schedule_monitor_interval k)) ∧
    (∀ (statuses : Restaurant → CheckResult) (sendOk : Int → Bool)
        (now : Int) (statsOn : Bool) (k : Nat),
      (monitor_restaurants_job ([] : Registry) statuses sendOk now statsOn k).2 =
        some (schedule_monitor_interval k)) := by
  refine ⟨?_, ?_, ?_, ?_⟩
  · intro k
    unfold schedule_monitor_interval randrange MONITOR_INTERVAL_RANGE_SEC
    simp only
    have : k % 10 < 10 := Nat.mod_lt k (by norm_num)
    omega
  · intro v h10 h20
    refine ⟨v - 10, ?_⟩
    unfold schedule_monitor_interval randrange MONITOR_INTERVAL_RANGE_SEC
    simp only
    omega
  · intro reg statuses sendOk now statsOn k hab
    unfold monitor_restaurants_job
    simp [hab]
  · intro statuses sendOk now statsOn k
    unfold monitor_restaurants_job monitor_restaurants scan_restaurants
    simp [remove_done]

/-- Witness for C8: the delay 13 is attainable, and the empty tick completes
and schedules a next run with the randrange delay. -/
theorem c8_schedule_amended_witness :
    ((10 : Nat) ≤ 13 ∧ (13 : Nat) < 20 ∧ ∃ k, schedule_monitor_interval k = 13) ∧
    (monitor_restaurants ([] : Registry) (fun _ => CheckResult.ok false)
        (fun _ => true) 0 false).aborted = none ∧
    (monitor_restaurants_job ([] : Registry) (fun _ => CheckResult.ok false)
        (fun _ => true) 0 false 4).2 = some (schedule_monitor_interval 4) :=
  ⟨⟨by decide, by decide,
    c8_schedule_amended.2.1 13 (by decide) (by decide)⟩,
   by decide,
   c8_schedule_amended.2.2.1 [] (fun _ => CheckResult.ok false) (fun _ => true)
     0 false 4 (by decide)⟩

/- C9 fixtures. -/

def c9Registry : Registry := [(pizzaPlace, [⟨1, 0⟩])]

/-- C9 counterexample: a watch for pizzaPlace already exists, so the claim
requires the subscribe call to return the boolean true; the Python method has
no return statement and returns None, modelled as the always absent Option
value, which is not the required boolean. -/
theorem c9_counterexample :
    watch_already_existed_spec c9Registry pizzaPlace = true ∧
    monitor_restaurant_value c9Registry pizzaPlace 2 5 = none ∧
    monitor_restaurant_value c9Registry pizzaPlace 2 5 ≠
      some (watch_already_existed_spec c9Registry pizzaPlace) := by
  refine ⟨rfl, rfl, ?_⟩
  intro h
  cases h

/-- C9 amended: monitor_restaurant returns no value (None in the source); the
call still guarantees that a watch for the restaurant exists in the registry
afterwards, and whether one already existed is observable from the registry
state before the call, not from the returned value. -/
theorem c9_subscribe_return (reg : Registry) (r : Restaurant) (c t : Int) :
    monitor_restaurant_value reg r c t = none ∧
    hasKey (monitor_restaurant reg r c t) r = true := by
  refine ⟨rfl, ?_⟩
  rw [hasKey_eq_lookupCtx_isSome, lookupCtx_monitor_restaurant_self]
  rfl

/- C10 supporting lemmas. -/

theorem did_restaurant_timeout_isSome {ctx : RestaurantContext} (now : Int)
    (h : ctx ≠ []) : (did_restaurant_timeout ctx now).isSome = true := by
  obtain ⟨q, rest, hq⟩ := List.exists_cons_of_ne_nil h
  rw [hq]
  rfl

theorem scan_emptyMin_ne {statuses : Restaurant → CheckResult} {sendOk : Int → Bool}
    {now : Int} :
    ∀ {l : Registry}, (∀ p ∈ l, p.2 ≠ []) →
      ∀ {km : TickAbort × List Msg},
        scan_restaurants statuses sendOk now l = Except.error km →
        km.1 ≠ TickAbort.emptyMin := by
  intro l
  induction l with
  | nil =>
      intro _ km h
      cases h
  | cons p rest ih =>
      intro hne km h
      have hprest : ∀ q ∈ rest, q.2 ≠ [] :=
        fun q hq => hne q (List.mem_cons_of_mem p hq)
      simp only [scan_restaurants] at h
      cases hst : statuses p.1 with
      | crash =>
          rw [hst] at h
          cases h
          simp
      | apiError =>
          rw [hst] at h
          cases hn : notify_chats sendOk p.2 errorMessageText with
          | error ms1 =>
              rw [hn] at h
              cases h
              simp
          | ok ms1 =>
              rw [hn] at h
              cases hs : scan_restaurants statuses sendOk now rest with
              | ok dm => rw [hs] at h; simp [scanStep] at h
              | error km2 =>
                  rw [hs] at h
                  simp only [scanStep] at h
                  cases h
                  show km2.1 ≠ TickAbort.emptyMin
                  exact ih hprest hs
      | ok b =>
          cases b with
          | true =>
              rw [hst] at h
              cases hn : notify_chats sendOk p.2 (onlineMessageText p.1) with
              | error ms1 =>
                  rw [hn] at h
                  cases h
                  simp
              | ok ms1 =>
                  rw [hn] at h
                  cases hs : scan_restaurants statuses sendOk now rest with
                  | ok dm => rw [hs] at h; simp [scanStep] at h
                  | error km2 =>
                      rw [hs] at h
                      simp only [scanStep] at h
                      cases h
                      show km2.1 ≠ TickAbort.emptyMin
                      exact ih hprest hs
          | false =>
              rw [hst] at h
              have hne0 : p.2 ≠ [] := hne p (List.mem_cons_self p rest)
              cases hd : did_restaurant_timeout p.2 now with
              | none =>
                  exfalso
                  have := did_restaurant_timeout_isSome now hne0
                  rw [hd] at this
                  cases this
              | some tb =>
                  rw [hd] at h
                  cases tb with
                  | true =>
                      cases hn : notify_chats sendOk p.2 (timeoutMessageText p.1) with
                      | error ms1 =>
                          rw [hn] at h
                          cases h
                          simp
                      | ok ms1 =>
                          rw [hn] at h
                          cases hs : scan_restaurants statuses sendOk now rest with
                          | ok dm => rw [hs] at h; simp [scanStep] at h
                          | error km2 =>
                              rw [hs] at h
                              simp only [scanStep] at h
                              cases h
                              show km2.1 ≠ TickAbort.emptyMin
                              exact ih hprest hs
                  | false =>
                      cases hs : scan_restaurants statuses sendOk now rest with
                      | ok dm => rw [hs] at h; simp [scanStep] at h
                      | error km2 =>
                          rw [hs] at h
                          simp only [scanStep] at h
                          cases h
                          exact ih hprest hs

/-- C10: in every reachable registry state, the minimum over subscriber start
times is defined for every restaurant a tick examines (the empty iterable
branch of the Python min, a ValueError, is unreachable): did_restaurant_timeout
answers on every entry, and no tick ever aborts through the empty min path. -/
theorem c10_min_defined (reg : Registry) (h : Reachable reg) (now : Int)
    (statuses : Restaurant → CheckResult) (sendOk : Int → Bool) (statsOn : Bool) :
    (∀ p ∈ reg, (did_restaurant_timeout p.2 now).isSome = true) ∧
    (monitor_restaurants reg statuses sendOk now statsOn).aborted ≠
      some TickAbort.emptyMin := by
  have hwf := reachable_wf h
  constructor
  · intro p hp
    exact did_restaurant_timeout_isSome now ((hwf.2 p hp).1)
  · unfold monitor_restaurants
    cases hs : scan_restaurants statuses sendOk now reg with
    | ok dm => simp
    | error km =>
        simp only
        intro habs
        have hkm : km.1 = TickAbort.emptyMin := by
          simpa using habs
        exact scan_emptyMin_ne (fun p hp => (hwf.2 p hp).1) hs hkm

/-- Witness for C10 at the reachable one entry registry. -/
theorem c10_min_defined_witness :
    Reachable (monitor_restaurant [] pizzaPlace 1 0) ∧
    ((∀ p ∈ monitor_restaurant [] pizzaPlace 1 0,
        (did_restaurant_timeout p.2 5).isSome = true) ∧
      (monitor_restaurants (monitor_restaurant [] pizzaPlace 1 0)
          (fun _ => CheckResult.ok false) (fun _ => true) 5 true).aborted ≠
        some TickAbort.emptyMin) :=
  ⟨Reachable.subscribe pizzaPlace 1 0 Reachable.empty,
   c10_min_defined (monitor_restaurant [] pizzaPlace 1 0)
     (Reachable.subscribe pizzaPlace 1 0 Reachable.empty) 5
     (fun _ => CheckResult.ok false) (fun _ => true) true⟩

end WoltModel
